import Mathlib

/-!
Shallow embedding of the command-dispatch and generation-streaming pipeline
of the `alpa` hotkey text-generation launcher (`src/command.rs`, `src/host.rs`),
together with theorems settling the frozen claims about it.
-/

namespace Alpa

/-- Platform-independent identity of a physical key (`crate::keycode::Keycode`),
an interned enumeration; modelled as an abstract decidable identity. -/
abbrev Keycode := Nat

/-- Source `command.rs`: `pub enum ClipboardLoad { Line }`. -/
inductive ClipboardLoad
  | Line
  deriving DecidableEq, Repr

/-- Source `command.rs`: `pub struct Clipboard { pub load: Option<ClipboardLoad> }`. -/
structure Clipboard where
  load : Option ClipboardLoad
  deriving DecidableEq, Repr

/-- Source `command.rs`: `pub enum InputMethod { SingleLineUi, Clipboard(Clipboard) }`. -/
inductive InputMethod
  | SingleLineUi
  | Clipboard (c : Clipboard)
  deriving DecidableEq, Repr

/-- Source `command.rs`: `pub enum PromptMode { Autocomplete, Prompt(String) }`. -/
inductive PromptMode
  | Autocomplete
  | Prompt (template : String)
  deriving DecidableEq, Repr

/-- Source `command.rs`: `pub enum NewlineBehavior { Stop, Enter, ShiftEnter }`. -/
inductive NewlineBehavior
  | Stop
  | Enter
  | ShiftEnter
  deriving DecidableEq, Repr

/-- Source `command.rs`: `pub struct GenerateCommand { input, mode, newline }`. -/
structure GenerateCommand where
  input : InputMethod
  mode : PromptMode
  newline : NewlineBehavior
  deriving DecidableEq, Repr

/-- Source `command.rs`: `pub enum CommandType { Generate(GenerateCommand), Cancel }`. -/
inductive CommandType
  | Generate (g : GenerateCommand)
  | Cancel
  deriving DecidableEq, Repr

/-- Source `command.rs`: `pub struct Command { pub keys: HashSet<Keycode>, pub ty: CommandType }`. -/
structure Command where
  keys : Finset Keycode
  ty : CommandType
  deriving DecidableEq

/-- Source `command.rs` `Command::is_pressed`: `keycodes.is_superset(&self.keys)`. -/
def Command.is_pressed (c : Command) (keycodes : Finset Keycode) : Bool :=
  decide (c.keys ⊆ keycodes)

/-! ### Hotkey poller: per-tick command matching and selection (`host.rs` lines 58-67) -/

/-- Source `host.rs` lines 58-64: collect every configured command whose chord is pressed,
preserving configuration order. -/
def commands_to_process (cmds : List Command) (keycodes : Finset Keycode) : List Command :=
  cmds.filter (fun c => c.is_pressed keycodes)

/-- One step of a stable insertion sort by descending key-count: `c` is placed
before the first element whose key-count is less than or equal to its own,
after every element whose key-count is strictly greater.  This realises the
(stable) `sort_by_key(|cmd| -(cmd.keys.len() as isize))` of `host.rs` line 65:
equal key-counts keep their original (configuration) order. -/
def insertDesc (c : Command) : List Command → List Command
  | [] => [c]
  | d :: ds => if c.keys.card < d.keys.card then d :: insertDesc c ds else c :: d :: ds

/-- Stable sort by descending key-count (`host.rs` line 65; Rust's slice sort is
documented stable, so any stable sort is extensionally the same). -/
def sortDescStable : List Command → List Command
  | [] => []
  | c :: rest => insertDesc c (sortDescStable rest)

/-- Source `host.rs` line 67: the dispatched command of a tick is the first element of
the matching commands sorted stably by descending key-count
(`commands_to_process.first()`). -/
def selectCommand (cmds : List Command) (keycodes : Finset Keycode) : Option Command :=
  (sortDescStable (commands_to_process cmds keycodes)).head?

/-! ### Token-to-keystroke translator (`host.rs` lines 147-184) -/

/-- A single call into the keystroke-injection service (`enigo`). -/
inductive Keystroke
  | TypeText (s : String)
  | PressEnter
  | ShiftDown
  | ShiftUp
  deriving DecidableEq, Repr

/-- Source `llm::InferenceFeedback`. -/
inductive InferenceFeedback
  | Continue
  | Halt
  deriving DecidableEq, Repr

/-- Source `llm::InferenceResponse`: the callback only ever matches `InferredToken`;
all other variants fall through the `if let` unchanged. -/
inductive InferenceResponse
  | PromptToken (t : String)
  | InferredToken (t : String)
  | EotToken
  deriving DecidableEq, Repr

/-- Strip one trailing carriage return (the `\x5cr` of a `\x5cr\x5cn` line ending). -/
def stripCR (l : List Char) : List Char :=
  match l.getLast? with
  | some c => if c = '\r' then l.dropLast else l
  | none => l

/-- Split a character list at every newline character: `n` newlines yield
`n + 1` segments, in order. -/
def splitNl : List Char → List (List Char)
  | [] => [[]]
  | c :: cs =>
    if c = '\n' then [] :: splitNl cs
    else
      match splitNl cs with
      | [] => [[c]]
      | s :: ss => (c :: s) :: ss

/-- Rust `str::lines()`: split at `\x5cn` line endings; a final line ending
produces no extra empty element; a `\x5cr` immediately before a `\x5cn` is
stripped, but a `\x5cr` not followed by a newline is kept. -/
def rustLines (s : String) : List String :=
  let parts := splitNl s.data
  match parts.getLast? with
  | none => []
  | some last =>
    let init := (parts.dropLast).map (fun l => String.mk (stripCR l))
    if last.isEmpty then init else init ++ [String.mk last]

/-- The `for line in t.lines()` loop of `host.rs` lines 158-181, with `first`
and the accumulated `feedback` threaded explicitly.  Note the loop types the
current line (`key_sequence(&line)`) before checking for a `Halt` break, so a
`Stop` boundary still types the line that follows it. -/
def lineLoop (nl : NewlineBehavior) :
    Bool → InferenceFeedback → List String → List Keystroke × InferenceFeedback
  | _, feedback, [] => ([], feedback)
  | first, feedback, line :: rest =>
    let step :=
      if !first || line.isEmpty then
        match nl with
        | .Stop => (([] : List Keystroke), InferenceFeedback.Halt)
        | .Enter => ([Keystroke.PressEnter], feedback)
        | .ShiftEnter =>
            ([Keystroke.ShiftDown, Keystroke.PressEnter, Keystroke.ShiftUp], feedback)
      else ([], feedback)
    let typed := step.1 ++ [Keystroke.TypeText line]
    match step.2 with
    | .Halt => (typed, .Halt)
    | .Continue =>
      let more := lineLoop nl false .Continue rest
      (typed ++ more.1, more.2)

/-- One invocation of the per-token closure of `host.rs` lines 147-184.
Input: the current value of the shared `cancel_immediately` flag and the
engine's response.  Output: the new flag value, the keystrokes injected during
this invocation, and the feedback returned to the engine.  The `first` flag is
declared inside the closure (line 157), so it is reset on every invocation. -/
def runCallback (nl : NewlineBehavior) (cancel : Bool) (tok : InferenceResponse) :
    Bool × List Keystroke × InferenceFeedback :=
  if cancel then (false, [], .Halt)
  else
    match tok with
    | .InferredToken t =>
      let r := lineLoop nl true .Continue (rustLines t)
      (false, r.1, r.2)
    | _ => (false, [], .Continue)

/-- The engine's streaming loop driving the callback over a sequence of
responses.  Each list entry carries, besides the response, whether the poller
thread stored `cancel_immediately = true` just before that invocation (the
flag is shared and may be set between any two invocations).  Returns the final
flag value, all injected keystrokes, and whether the callback halted the
stream. -/
def runInfer (nl : NewlineBehavior) :
    Bool → List (Bool × InferenceResponse) → Bool × List Keystroke × Bool
  | cancel, [] => (cancel, [], false)
  | cancel, (b, tok) :: rest =>
    let r := runCallback nl (cancel || b) tok
    match r.2.2 with
    | .Halt => (r.1, r.2.1, true)
    | .Continue =>
      let r2 := runInfer nl r.1 rest
      (r2.1, r.2.1 ++ r2.2.1, r2.2.2)

/-- Keystrokes and halt flag produced by one generation over a stream of
inferred-token chunks, with the cancel flag clear and untouched throughout. -/
def translateStream (nl : NewlineBehavior) (toks : List String) :
    List Keystroke × Bool :=
  let r := runInfer nl false (toks.map fun t => (false, InferenceResponse.InferredToken t))
  (r.2.1, r.2.2)

/-- The `llm::InferenceRequest` fields fixed by `host.rs` lines 139-145. -/
structure InferenceRequest where
  play_back_previous_tokens : Bool
  maximum_token_count : Option Nat
  deriving DecidableEq

/-- The request `host.rs` builds for every generation: prompt playback is
disabled and no token cap is set. -/
def hostInferenceRequest : InferenceRequest :=
  { play_back_previous_tokens := false, maximum_token_count := none }

/-! ### Hotkey poller input thread (`host.rs` lines 43-85) -/

/-- Effects of one 10 ms tick of the input thread: the new `last_pressed`
debounce memory, the spec sent on the bounded channel this tick (if any), and
whether `cancel_immediately` was stored `true` this tick. -/
structure TickResult where
  last_pressed : Option GenerateCommand
  sent : Option GenerateCommand
  cancelStored : Bool
  deriving DecidableEq

/-- One tick of the input-thread loop (`host.rs` lines 50-83).  `isGen` is the
value of the shared `is_generating` flag observed by this tick's load;
`keycodes` is the snapshot of currently held keys. -/
def pollerTick (cmds : List Command) (last_pressed : Option GenerateCommand)
    (isGen : Bool) (keycodes : Finset Keycode) : TickResult :=
  let lp := if !isGen then none else last_pressed
  match selectCommand cmds keycodes with
  | none => ⟨lp, none, false⟩
  | some c =>
    match c.ty with
    | .Generate g =>
      if lp ≠ some g then ⟨some g, some g, false⟩ else ⟨lp, none, false⟩
    | .Cancel => ⟨lp, none, true⟩

/-- The shared `cancel_immediately` flag after a tick: the input thread only
ever stores `true` into it (`host.rs` line 77); it never clears it. -/
def cancelAfterTick (cancel : Bool) (r : TickResult) : Bool :=
  cancel || r.cancelStored

/-- The input thread run over a trace of ticks, each supplying the observed
`is_generating` value and the pressed-key snapshot; returns the list of specs
sent on the channel, in order. -/
def pollerRun (cmds : List Command) :
    Option GenerateCommand → List (Bool × Finset Keycode) → List GenerateCommand
  | _, [] => []
  | lp, (isGen, keycodes) :: rest =>
    let r := pollerTick cmds lp isGen keycodes
    r.sent.toList ++ pollerRun cmds r.last_pressed rest

/-! ### Generation Coordinator (`host.rs` lines 87-188) -/

/-- Error taxonomy of a generation attempt.  In `host.rs` each of these
escapes `main` (`?` on the prompt surface call at line 91, `?` on the
clipboard read at line 121, `unimplemented!` on a non-macOS clipboard
line-select at line 115, `?` on the engine call at line 185). -/
inductive CoordError
  | UnsupportedPlatform
  | EngineError
  | PromptSurfaceError
  | ClipboardError
  deriving DecidableEq

/-- The shared flags mutated by the coordinator loop and the callback. -/
structure CoordState where
  isGenerating : Bool
  cancelRequested : Bool
  deriving DecidableEq

/-- Environment of one coordinator iteration: the platform, the results the
external prompt surface and clipboard would return, the responses the engine
delivers to the callback (each tagged with whether the poller stored a cancel
just before it), and the engine call's own result when the callback never
halts it. -/
structure CoordEnv where
  macos : Bool
  singleLineResult : Except CoordError String
  clipboardResult : Except CoordError String
  responses : List (Bool × InferenceResponse)
  engineResult : Except CoordError Unit

/-- Prompt resolution per `spec.input` (`host.rs` lines 90-123).  A clipboard
line-select on a non-macOS platform hits `unimplemented!`.  (The macOS
line-select also injects a selection/copy keystroke sequence before reading
the clipboard; those keystrokes go to the prompt-resolution surface and are
not part of the generation's token-driven output modelled here.) -/
def resolvePrompt (env : CoordEnv) : InputMethod → Except CoordError String
  | .SingleLineUi => env.singleLineResult
  | .Clipboard c =>
    match c.load with
    | some .Line =>
      if env.macos then env.clipboardResult
      else .error .UnsupportedPlatform
    | none => env.clipboardResult

/-- One iteration of the coordinator loop body (`host.rs` lines 87-188) for a
received spec.  Returns the shared flags after the iteration, the keystrokes
injected by the callback, and `some e` when the iteration escaped `main` with
error `e` (so the loop is over).  Note the empty-prompt path (`continue` at
line 126) does not reset `isGenerating`. -/
def coordStep (env : CoordEnv) (st : CoordState) (spec : GenerateCommand) :
    CoordState × List Keystroke × Option CoordError :=
  let st1 : CoordState := { st with isGenerating := true }
  match resolvePrompt env spec.input with
  | .error e => (st1, [], some e)
  | .ok prompt =>
    if prompt.isEmpty then
      (st1, [], none)
    else
      let _new_prompt : String :=
        match spec.mode with
        | .Autocomplete => prompt
        | .Prompt template => template.replace "\x7b\x7bPROMPT\x7d\x7d" prompt
      let r := runInfer spec.newline st1.cancelRequested env.responses
      if r.2.2 then
        ({ isGenerating := false, cancelRequested := r.1 }, r.2.1, none)
      else
        match env.engineResult with
        | .error e => ({ st1 with cancelRequested := r.1 }, r.2.1, some e)
        | .ok _ => ({ isGenerating := false, cancelRequested := r.1 }, r.2.1, none)

/-- The coordinator loop over a list of iterations (spec received together
with the environment of its attempt).  Returns the final shared flags, how
many received specs were processed before the loop ended, and the error that
ended it (or `none` when the whole trace was consumed). -/
def coordLoop (st : CoordState) :
    List (CoordEnv × GenerateCommand) → CoordState × Nat × Option CoordError
  | [] => (st, 0, none)
  | (env, spec) :: rest =>
    let r := coordStep env st spec
    match r.2.2 with
    | some e => (r.1, 1, some e)
    | none =>
      let r2 := coordLoop r.1 rest
      (r2.1, r2.2.1 + 1, r2.2.2)

/-! ## Helper lemmas -/

theorem insertDesc_ne_nil (c : Command) (l : List Command) : insertDesc c l ≠ [] := by
  cases l with
  | nil => simp [insertDesc]
  | cons d ds =>
    simp only [insertDesc]
    split <;> simp

theorem sortDescStable_nil_iff (l : List Command) : sortDescStable l = [] ↔ l = [] := by
  cases l with
  | nil => simp [sortDescStable]
  | cons c rest =>
    simp only [sortDescStable]
    exact ⟨fun h => absurd h (insertDesc_ne_nil c _), fun h => by cases h⟩

theorem insertDesc_head_cons (c d : Command) (ds : List Command) :
    (insertDesc c (d :: ds)).head? =
      some (if c.keys.card < d.keys.card then d else c) := by
  simp only [insertDesc]
  split <;> simp

/-- Head of the stable descending sort: it is an element of the list with
maximal key-count, and every element before it in the original list has
strictly smaller key-count (ties are won by the earlier element). -/
theorem sortDescStable_head_spec :
    ∀ (m : List Command) (c : Command), (sortDescStable m).head? = some c →
      c ∈ m ∧ (∀ d ∈ m, d.keys.card ≤ c.keys.card) ∧
      ∃ pre post, m = pre ++ c :: post ∧ ∀ d ∈ pre, d.keys.card < c.keys.card := by
  intro m
  induction m with
  | nil => intro c h; simp [sortDescStable] at h
  | cons a rest ih =>
    intro c h
    simp only [sortDescStable] at h
    cases hs : sortDescStable rest with
    | nil =>
      rw [hs] at h
      have hrest : rest = [] := (sortDescStable_nil_iff rest).mp hs
      simp only [insertDesc, List.head?] at h
      subst hrest
      cases h
      exact ⟨List.mem_singleton.mpr rfl, by simp, [], [], by simp, by simp⟩
    | cons d ds =>
      rw [hs] at h
      rw [insertDesc_head_cons] at h
      have hd : (sortDescStable rest).head? = some d := by rw [hs]; rfl
      obtain ⟨hmem, hmax, pre, post, hsplit, hpre⟩ := ih d hd
      by_cases hlt : a.keys.card < d.keys.card
      · rw [if_pos hlt] at h
        cases h
        refine ⟨List.mem_cons_of_mem a hmem, ?_, a :: pre, post, by simp [hsplit], ?_⟩
        · intro e he
          rcases List.mem_cons.mp he with rfl | he'
          · exact le_of_lt hlt
          · exact hmax e he'
        · intro e he
          rcases List.mem_cons.mp he with rfl | he'
          · exact hlt
          · exact hpre e he'
      · rw [if_neg hlt] at h
        cases h
        refine ⟨List.mem_cons_self _ _, ?_, [], rest, by simp, by simp⟩
        intro e he
        rcases List.mem_cons.mp he with rfl | he'
        · exact le_refl _
        · exact le_trans (hmax e he') (le_of_not_lt hlt)

/-! ## Claims -/

/-- C7: for every command and every pressed-key set, `is_pressed` returns true
iff the pressed set is a superset of the command's keys, and adding keys
disjoint from the command's chord never changes the result.  (The function is
a pure total Lean function by construction.) -/
theorem is_pressed_superset (c : Command) (ks extra : Finset Keycode)
    (h : Disjoint extra c.keys) :
    (c.is_pressed ks = true ↔ c.keys ⊆ ks) ∧
    c.is_pressed (ks ∪ extra) = c.is_pressed ks := by
  constructor
  · simp [Command.is_pressed]
  · simp only [Command.is_pressed]
    rw [decide_eq_decide]
    constructor
    · intro hsub x hx
      rcases Finset.mem_union.mp (hsub hx) with h1 | h2
      · exact h1
      · exact absurd hx (Finset.disjoint_left.mp h h2)
    · intro hsub
      exact hsub.trans Finset.subset_union_left

/-- Witness for C7 at a concrete chord, pressed set, and unrelated extra key. -/
theorem is_pressed_superset_witness :
    ((⟨{1, 2}, CommandType.Cancel⟩ : Command).is_pressed {1, 2, 3} = true ↔
      ({1, 2} : Finset Keycode) ⊆ {1, 2, 3}) ∧
    (⟨{1, 2}, CommandType.Cancel⟩ : Command).is_pressed ({1, 2, 3} ∪ {5}) =
      (⟨{1, 2}, CommandType.Cancel⟩ : Command).is_pressed {1, 2, 3} :=
  is_pressed_superset ⟨{1, 2}, CommandType.Cancel⟩ {1, 2, 3} {5}
    (Finset.disjoint_left.mpr (by decide))

/-- C6: with the commands matching a tick's pressed-key set listed in
configuration order, the selected command has maximal key-count, every
matching command configured before it has strictly smaller key-count (so ties
go to the earliest-configured command), and if nothing matches, nothing is
selected. -/
theorem selected_command_spec (cmds : List Command) (keycodes : Finset Keycode) :
    (commands_to_process cmds keycodes = [] → selectCommand cmds keycodes = none) ∧
    ∀ c, selectCommand cmds keycodes = some c →
      c ∈ commands_to_process cmds keycodes ∧
      (∀ d ∈ commands_to_process cmds keycodes, d.keys.card ≤ c.keys.card) ∧
      ∃ pre post, commands_to_process cmds keycodes = pre ++ c :: post ∧
        ∀ d ∈ pre, d.keys.card < c.keys.card := by
  constructor
  · intro h
    simp [selectCommand, h, sortDescStable]
  · intro c h
    exact sortDescStable_head_spec (commands_to_process cmds keycodes) c h

/-- Witness for C6: three matching commands with key-counts 1, 2, 2; the
selected command is the earliest-configured of the two with maximal count. -/
theorem selected_command_spec_witness :
    (⟨{1, 2}, CommandType.Cancel⟩ : Command) ∈
      commands_to_process
        [⟨{1}, CommandType.Cancel⟩, ⟨{1, 2}, CommandType.Cancel⟩,
          ⟨{1, 3}, CommandType.Cancel⟩] {1, 2, 3} ∧
    (∀ d ∈ commands_to_process
        [⟨{1}, CommandType.Cancel⟩, ⟨{1, 2}, CommandType.Cancel⟩,
          ⟨{1, 3}, CommandType.Cancel⟩] {1, 2, 3},
      d.keys.card ≤ (⟨{1, 2}, CommandType.Cancel⟩ : Command).keys.card) ∧
    ∃ pre post,
      commands_to_process
        [⟨{1}, CommandType.Cancel⟩, ⟨{1, 2}, CommandType.Cancel⟩,
          ⟨{1, 3}, CommandType.Cancel⟩] {1, 2, 3} =
        pre ++ (⟨{1, 2}, CommandType.Cancel⟩ : Command) :: post ∧
      ∀ d ∈ pre, d.keys.card < (⟨{1, 2}, CommandType.Cancel⟩ : Command).keys.card :=
  (selected_command_spec
      [⟨{1}, CommandType.Cancel⟩, ⟨{1, 2}, CommandType.Cancel⟩,
        ⟨{1, 3}, CommandType.Cancel⟩] {1, 2, 3}).2
    ⟨{1, 2}, CommandType.Cancel⟩ (by decide)

/-- C3 counterexample: with newline=Enter and token stream
`["Hello", " world\x5cn", "second line"]` the code does NOT emit the claimed
keystroke sequence (type "Hello", type " world", press Enter, type
"second line"): the `first` flag is declared inside the callback, so it is
reset on every invocation, and `lines()` drops the chunk's trailing newline,
so no Enter is ever pressed. -/
theorem enter_stream_claimed_keystrokes_false :
    (translateStream NewlineBehavior.Enter ["Hello", " world\n", "second line"]).1 ≠
      [Keystroke.TypeText "Hello", Keystroke.TypeText " world", Keystroke.PressEnter,
        Keystroke.TypeText "second line"] := by decide

/-- C3 amended: the `first` flag is local to each callback invocation (reset
every chunk, not once per generation) and a chunk's trailing newline is
discarded by line splitting, so with newline=Enter the token stream
`["Hello", " world\x5cn", "second line"]` emits exactly: type "Hello",
type " world", type "second line" — no Enter at all. -/
theorem enter_stream_actual_keystrokes :
    translateStream NewlineBehavior.Enter ["Hello", " world\n", "second line"] =
      ([Keystroke.TypeText "Hello", Keystroke.TypeText " world",
        Keystroke.TypeText "second line"], false) := by decide

/-- C4 counterexample: with newline=Stop and token stream
`["abc\x5cn", "def"]` the code does not type "abc" and halt: "def" IS typed
and no halt is requested, because the trailing newline of the first chunk is
dropped by `lines()` and the per-invocation `first` flag hides the boundary. -/
theorem stop_stream_claimed_halt_false :
    translateStream NewlineBehavior.Stop ["abc\n", "def"] ≠
      ([Keystroke.TypeText "abc"], true) := by decide

/-- C4 amended: with newline=Stop, the stream `["abc\x5cn", "def"]` types
"abc" and then "def" with no halt (the chunk-final newline is never seen as a
boundary).  A Stop halt only triggers at a line boundary inside a single
chunk, and even then the line after the boundary is typed before the halt:
the single chunk `"abc\x5cndef"` types "abc", then types "def", then halts. -/
theorem stop_stream_actual_behavior :
    translateStream NewlineBehavior.Stop ["abc\n", "def"] =
      ([Keystroke.TypeText "abc", Keystroke.TypeText "def"], false) ∧
    translateStream NewlineBehavior.Stop ["abc\ndef"] =
      ([Keystroke.TypeText "abc", Keystroke.TypeText "def"], true) := by decide

/-- C10: a callback invocation on any engine response that is not an inferred
token injects no keystrokes, and the inference request built for every
generation disables prompt playback — so the prompt text is never typed back
into the focused application. -/
theorem only_inferred_tokens_inject (nl : NewlineBehavior) (cancel : Bool)
    (tok : InferenceResponse) (h : ∀ t, tok ≠ InferenceResponse.InferredToken t) :
    (runCallback nl cancel tok).2.1 = [] ∧
    hostInferenceRequest.play_back_previous_tokens = false := by
  refine ⟨?_, rfl⟩
  unfold runCallback
  split
  · rfl
  · cases tok with
    | PromptToken t => rfl
    | InferredToken t => exact absurd rfl (h t)
    | EotToken => rfl

/-- Witness for C10 at a concrete prompt-token response. -/
theorem only_inferred_tokens_inject_witness :
    (runCallback NewlineBehavior.Enter false
        (InferenceResponse.PromptToken "the prompt")).2.1 = [] ∧
    hostInferenceRequest.play_back_previous_tokens = false :=
  only_inferred_tokens_inject NewlineBehavior.Enter false
    (InferenceResponse.PromptToken "the prompt") (by simp)

/-- While the combo keeps selecting the same Generate spec and every tick
observes `is_generating = true`, debounce memory `last_pressed = some g` is
retained and nothing further is sent. -/
theorem pollerRun_no_resend (cmds : List Command) (g : GenerateCommand) :
    ∀ (rest : List (Bool × Finset Keycode)),
      (∀ p ∈ rest, p.1 = true ∧
        ∃ c, selectCommand cmds p.2 = some c ∧ c.ty = CommandType.Generate g) →
      pollerRun cmds (some g) rest = [] := by
  intro rest
  induction rest with
  | nil => intro _; rfl
  | cons p rest ih =>
    intro h
    obtain ⟨b, ks⟩ := p
    obtain ⟨hb, c, hc, hty⟩ := h (b, ks) (List.mem_cons_self _ _)
    have htail : ∀ p ∈ rest, p.1 = true ∧
        ∃ c, selectCommand cmds p.2 = some c ∧ c.ty = CommandType.Generate g :=
      fun p hp => h p (List.mem_cons_of_mem _ hp)
    cases hb
    simp only [pollerRun, pollerTick, Bool.not_true, Bool.false_eq_true, if_false, hc, hty]
    simp [ih htail]

/-- C5 counterexample: one Generate command whose single-key chord is held at
every one of three ticks (a single continuous press episode).  The middle
tick observes `is_generating = true` (the generation is in flight) but the
third observes `is_generating = false` (the generation completed while the
combo was still held), which clears `last_pressed`, so the same spec is sent
twice during the one episode — not exactly once. -/
theorem held_combo_double_dispatch :
    pollerRun
        [⟨{1}, CommandType.Generate ⟨InputMethod.SingleLineUi, PromptMode.Autocomplete,
          NewlineBehavior.Enter⟩⟩] none
        [(false, {1}), (true, {1}), (false, {1})] =
      [⟨InputMethod.SingleLineUi, PromptMode.Autocomplete, NewlineBehavior.Enter⟩,
        ⟨InputMethod.SingleLineUi, PromptMode.Autocomplete, NewlineBehavior.Enter⟩] ∧
    ([(false, ({1} : Finset Keycode)), (true, {1}), (false, {1})].all fun p =>
      Command.is_pressed ⟨{1}, CommandType.Generate ⟨InputMethod.SingleLineUi,
        PromptMode.Autocomplete, NewlineBehavior.Enter⟩⟩ p.2) = true ∧
    (pollerRun
        [⟨{1}, CommandType.Generate ⟨InputMethod.SingleLineUi, PromptMode.Autocomplete,
          NewlineBehavior.Enter⟩⟩] none
        [(false, {1}), (true, {1}), (false, {1})]).length ≠ 1 := by decide

/-- C5 amended: at most one request per press episode holds only while the
generation stays in flight: starting a fresh episode (`last_pressed = none`),
if the combo selects the same Generate spec at every tick and every tick
after the first observes `is_generating = true`, exactly one request is sent,
because `last_pressed` suppresses re-sends and is cleared only when
`is_generating` is observed false.  (Once a tick observes
`is_generating = false` with the combo still held, the same spec is
re-dispatched within the same hold, as the counterexample shows.) -/
theorem dispatch_once_while_generating (cmds : List Command) (g : GenerateCommand)
    (b0 : Bool) (ks0 : Finset Keycode) (rest : List (Bool × Finset Keycode))
    (h0 : ∃ c, selectCommand cmds ks0 = some c ∧ c.ty = CommandType.Generate g)
    (hrest : ∀ p ∈ rest, p.1 = true ∧
      ∃ c, selectCommand cmds p.2 = some c ∧ c.ty = CommandType.Generate g) :
    pollerRun cmds none ((b0, ks0) :: rest) = [g] := by
  obtain ⟨c, hc, hty⟩ := h0
  have hlp : (if !b0 then none else none) = (none : Option GenerateCommand) := by
    cases b0 <;> rfl
  simp only [pollerRun, pollerTick, hlp, hc, hty]
  simp [pollerRun_no_resend cmds g rest hrest]

/-- Witness for C5 amended: a two-tick episode, the second tick observing the
generation in flight, sends the spec exactly once. -/
theorem dispatch_once_while_generating_witness :
    pollerRun
        [⟨{1}, CommandType.Generate ⟨InputMethod.SingleLineUi, PromptMode.Autocomplete,
          NewlineBehavior.Enter⟩⟩] none
        [(false, {1}), (true, {1})] =
      [⟨InputMethod.SingleLineUi, PromptMode.Autocomplete, NewlineBehavior.Enter⟩] :=
  dispatch_once_while_generating
    [⟨{1}, CommandType.Generate ⟨InputMethod.SingleLineUi, PromptMode.Autocomplete,
      NewlineBehavior.Enter⟩⟩]
    ⟨InputMethod.SingleLineUi, PromptMode.Autocomplete, NewlineBehavior.Enter⟩
    false {1} [(true, {1})]
    ⟨⟨{1}, CommandType.Generate ⟨InputMethod.SingleLineUi, PromptMode.Autocomplete,
      NewlineBehavior.Enter⟩⟩, by decide, rfl⟩
    (by
      intro p hp
      simp only [List.mem_singleton] at hp
      subst hp
      exact ⟨rfl, ⟨⟨{1}, CommandType.Generate ⟨InputMethod.SingleLineUi,
        PromptMode.Autocomplete, NewlineBehavior.Enter⟩⟩, by decide, rfl⟩⟩)

/-- C1: evaluation of the coordinator at a generation whose resolved prompt is
empty (the prompt surface returned the empty string).  The iteration aborts
without injecting anything and without an error, but — in divergence from the
claim — `isGenerating` is left `true` when the loop returns to receive the
next spec, so the debounce memory is never cleared again and no command can
be re-dispatched. -/
theorem empty_prompt_keeps_isGenerating :
    coordStep ⟨true, Except.ok "", Except.ok "", [], Except.ok ()⟩ ⟨false, false⟩
        ⟨InputMethod.SingleLineUi, PromptMode.Autocomplete, NewlineBehavior.Enter⟩ =
      (⟨true, false⟩, [], none) ∧
    (coordStep ⟨true, Except.ok "", Except.ok "", [], Except.ok ()⟩ ⟨false, false⟩
        ⟨InputMethod.SingleLineUi, PromptMode.Autocomplete,
          NewlineBehavior.Enter⟩).1.isGenerating = true := by decide

/-- C2 counterexample: each of the three error kinds ends the coordinator
loop itself, rather than aborting only the one generation attempt.  In every
trace below a second spec is waiting, yet the loop processes only the first
one and stops with the error (and `isGenerating` is left `true`). -/
theorem coord_errors_claim_false :
    coordLoop ⟨false, false⟩
        [(⟨true, Except.ok "hi", Except.ok "hi",
            [(false, InferenceResponse.InferredToken "x")],
            Except.error CoordError.EngineError⟩,
          ⟨InputMethod.SingleLineUi, PromptMode.Autocomplete, NewlineBehavior.Enter⟩),
          (⟨true, Except.ok "hi", Except.ok "hi", [], Except.ok ()⟩,
          ⟨InputMethod.SingleLineUi, PromptMode.Autocomplete, NewlineBehavior.Enter⟩)] =
      (⟨true, false⟩, 1, some CoordError.EngineError) ∧
    coordLoop ⟨false, false⟩
        [(⟨false, Except.ok "hi", Except.ok "hi", [], Except.ok ()⟩,
          ⟨InputMethod.Clipboard ⟨some ClipboardLoad.Line⟩, PromptMode.Autocomplete,
            NewlineBehavior.Enter⟩),
          (⟨false, Except.ok "hi", Except.ok "hi", [], Except.ok ()⟩,
          ⟨InputMethod.SingleLineUi, PromptMode.Autocomplete, NewlineBehavior.Enter⟩)] =
      (⟨true, false⟩, 1, some CoordError.UnsupportedPlatform) ∧
    coordLoop ⟨false, false⟩
        [(⟨true, Except.error CoordError.PromptSurfaceError, Except.ok "hi", [],
            Except.ok ()⟩,
          ⟨InputMethod.SingleLineUi, PromptMode.Autocomplete, NewlineBehavior.Enter⟩),
          (⟨true, Except.ok "hi", Except.ok "hi", [], Except.ok ()⟩,
          ⟨InputMethod.SingleLineUi, PromptMode.Autocomplete, NewlineBehavior.Enter⟩)] =
      (⟨true, false⟩, 1, some CoordError.PromptSurfaceError) := by decide

/-- C2 amended: an error of a generation attempt (UnsupportedPlatform,
EngineError, or PromptSurfaceError) propagates out of `main`: the coordinator
loop ends with that error after the failing attempt, later received specs are
never processed, and `isGenerating` is left `true`. -/
theorem coord_error_ends_loop (env : CoordEnv) (st st2 : CoordState)
    (spec : GenerateCommand) (ks : List Keystroke) (e : CoordError)
    (rest : List (CoordEnv × GenerateCommand))
    (h : coordStep env st spec = (st2, ks, some e)) :
    coordLoop st ((env, spec) :: rest) = (st2, 1, some e) ∧
    st2.isGenerating = true := by
  constructor
  · simp only [coordLoop, h]
  · simp only [coordStep] at h
    split at h
    · simp only [Prod.mk.injEq] at h
      obtain ⟨h1, -, -⟩ := h
      rw [← h1]
    · split at h
      · simp at h
      · split at h
        · simp at h
        · split at h
          · simp only [Prod.mk.injEq] at h
            obtain ⟨h1, -, -⟩ := h
            rw [← h1]
          · simp at h

/-- Witness for C2 amended at the concrete EngineError trace. -/
theorem coord_error_ends_loop_witness :
    coordLoop ⟨false, false⟩
        [(⟨true, Except.ok "hi", Except.ok "hi",
            [(false, InferenceResponse.InferredToken "x")],
            Except.error CoordError.EngineError⟩,
          ⟨InputMethod.SingleLineUi, PromptMode.Autocomplete, NewlineBehavior.Enter⟩),
          (⟨true, Except.ok "hi", Except.ok "hi", [], Except.ok ()⟩,
          ⟨InputMethod.SingleLineUi, PromptMode.Autocomplete, NewlineBehavior.Enter⟩)] =
      (⟨true, false⟩, 1, some CoordError.EngineError) ∧
    (⟨true, false⟩ : CoordState).isGenerating = true :=
  coord_error_ends_loop
    ⟨true, Except.ok "hi", Except.ok "hi",
      [(false, InferenceResponse.InferredToken "x")],
      Except.error CoordError.EngineError⟩
    ⟨false, false⟩ ⟨true, false⟩
    ⟨InputMethod.SingleLineUi, PromptMode.Autocomplete, NewlineBehavior.Enter⟩
    [Keystroke.TypeText "x"] CoordError.EngineError
    [(⟨true, Except.ok "hi", Except.ok "hi", [], Except.ok ()⟩,
      ⟨InputMethod.SingleLineUi, PromptMode.Autocomplete, NewlineBehavior.Enter⟩)]
    (by decide)

/-- Appending further responses to a stream whose processing did not halt
just continues processing from the carried cancel flag, concatenating the
injected keystrokes. -/
theorem runInfer_append_no_halt (nl : NewlineBehavior)
    (l1 : List (Bool × InferenceResponse)) :
    ∀ (c : Bool) (l2 : List (Bool × InferenceResponse)),
      (runInfer nl c l1).2.2 = false →
      runInfer nl c (l1 ++ l2) =
        ((runInfer nl (runInfer nl c l1).1 l2).1,
          (runInfer nl c l1).2.1 ++ (runInfer nl (runInfer nl c l1).1 l2).2.1,
          (runInfer nl (runInfer nl c l1).1 l2).2.2) := by
  induction l1 with
  | nil => intro c l2 _; simp [runInfer]
  | cons p l1 ih =>
    intro c l2 hnh
    obtain ⟨b, tok⟩ := p
    rcases hr : runCallback nl (c || b) tok with ⟨c2, r2⟩
    rcases r2 with ⟨ks, fb⟩
    cases fb with
    | Halt =>
      exfalso
      simp only [runInfer, hr] at hnh
      exact absurd hnh (by simp)
    | Continue =>
      simp only [List.cons_append, runInfer, hr, List.append_eq] at hnh ⊢
      rw [ih c2 l2 hnh]
      simp

/-- C8: if `cancelRequested` is stored during a streaming generation (after a
prefix of responses processed with the flag clear and no halt), the next
callback invocation halts immediately and injects nothing, and when the
streaming call returns the coordinator leaves `isGenerating = false` with
`cancelRequested` reset to `false`; the generation's keystrokes are exactly
those of the prefix. -/
theorem cancel_mid_stream_halts (env : CoordEnv) (st : CoordState)
    (spec : GenerateCommand) (pre rest : List (Bool × InferenceResponse))
    (tok : InferenceResponse) (ksPre : List Keystroke) (p : String)
    (hc0 : st.cancelRequested = false)
    (hpre : runInfer spec.newline false pre = (false, ksPre, false))
    (hresp : env.responses = pre ++ (true, tok) :: rest)
    (hp : resolvePrompt env spec.input = Except.ok p)
    (hnem : p.isEmpty = false) :
    runCallback spec.newline true tok = (false, [], InferenceFeedback.Halt) ∧
    coordStep env st spec = (⟨false, false⟩, ksPre, none) := by
  have htail : runInfer spec.newline false ((true, tok) :: rest) = (false, [], true) := rfl
  have happ := runInfer_append_no_halt spec.newline pre false ((true, tok) :: rest)
    (by rw [hpre])
  rw [hpre] at happ
  simp only [htail] at happ
  constructor
  · rfl
  · simp only [coordStep, hp, hnem, Bool.false_eq_true, if_false]
    have hcr : ({ st with isGenerating := true } : CoordState).cancelRequested = false := hc0
    rw [hresp, hcr, happ]
    simp

/-- Witness for C8: cancel stored before the only response of the stream. -/
theorem cancel_mid_stream_halts_witness :
    runCallback NewlineBehavior.Enter true (InferenceResponse.InferredToken "x") =
      (false, [], InferenceFeedback.Halt) ∧
    coordStep
        ⟨true, Except.ok "hi", Except.ok "hi",
          [(true, InferenceResponse.InferredToken "x")], Except.ok ()⟩
        ⟨false, false⟩
        ⟨InputMethod.SingleLineUi, PromptMode.Autocomplete, NewlineBehavior.Enter⟩ =
      (⟨false, false⟩, [], none) :=
  cancel_mid_stream_halts
    ⟨true, Except.ok "hi", Except.ok "hi",
      [(true, InferenceResponse.InferredToken "x")], Except.ok ()⟩
    ⟨false, false⟩
    ⟨InputMethod.SingleLineUi, PromptMode.Autocomplete, NewlineBehavior.Enter⟩
    [] [] (InferenceResponse.InferredToken "x") [] "hi"
    rfl rfl rfl rfl rfl

/-- C9: a Cancel dispatched while no generation is in flight leaves
`cancelRequested` set (ticks of the input thread only ever store `true` into
the flag, never `false`), and the next generation is halted at its very first
callback invocation with zero keystrokes injected, the flag being reset
exactly there; the coordinator then records `isGenerating = false` and
`cancelRequested = false`. -/
theorem stale_cancel_halts_first_token (env : CoordEnv) (st : CoordState)
    (spec : GenerateCommand) (b : Bool) (tok : InferenceResponse)
    (rest : List (Bool × InferenceResponse)) (p : String)
    (hc : st.cancelRequested = true)
    (hresp : env.responses = (b, tok) :: rest)
    (hp : resolvePrompt env spec.input = Except.ok p)
    (hnem : p.isEmpty = false) :
    coordStep env st spec = (⟨false, false⟩, [], none) ∧
    (∀ (cancel : Bool) (r : TickResult), cancel = true →
      cancelAfterTick cancel r = true) := by
  constructor
  · simp only [coordStep, hp, hnem, Bool.false_eq_true, if_false]
    have hcr : ({ st with isGenerating := true } : CoordState).cancelRequested = true := hc
    rw [hresp, hcr]
    simp [runInfer, runCallback]
  · intro cancel r hcancel
    simp [cancelAfterTick, hcancel]

/-- Witness for C9: the flag set while idle halts the next generation's first
callback. -/
theorem stale_cancel_halts_first_token_witness :
    coordStep
        ⟨true, Except.ok "hi", Except.ok "hi",
          [(false, InferenceResponse.InferredToken "x")], Except.ok ()⟩
        ⟨false, true⟩
        ⟨InputMethod.SingleLineUi, PromptMode.Autocomplete, NewlineBehavior.Enter⟩ =
      (⟨false, false⟩, [], none) ∧
    (∀ (cancel : Bool) (r : TickResult), cancel = true →
      cancelAfterTick cancel r = true) :=
  stale_cancel_halts_first_token
    ⟨true, Except.ok "hi", Except.ok "hi",
      [(false, InferenceResponse.InferredToken "x")], Except.ok ()⟩
    ⟨false, true⟩
    ⟨InputMethod.SingleLineUi, PromptMode.Autocomplete, NewlineBehavior.Enter⟩
    false (InferenceResponse.InferredToken "x") [] "hi"
    rfl rfl rfl rfl

end Alpa
